import Mathlib

/-!
Verification of `src/behavioral_monitor.py` (behavioral input-telemetry monitor).

The Python program is shallowly embedded: Python floats become `ℚ`,
`queue.Queue` and `collections.deque` become lists with the corresponding
capacity discipline, and the `dict` used for pending key presses becomes an
association list with unique keys.  All mutating methods of the
`BehavioralMonitor` class become pure functions from a `MonitorState` (the
instance attributes set up in `__init__`) to a new `MonitorState`; the wall
clock `time.time()` is passed explicitly as a `now : ℚ` argument.
-/

/-- `@dataclass KeystrokeData`: metadata about one keystroke; no key content. -/
structure KeystrokeData where
  timestamp : ℚ
  key_type : String
  is_modifier : Bool
  press_duration : Option ℚ := none
deriving DecidableEq

/-- `@dataclass MouseData`: one pointer event. -/
structure MouseData where
  timestamp : ℚ
  x : ℤ
  y : ℤ
  action : String
  button : Option String := none
  scroll_direction : Option String := none
deriving DecidableEq

/-- `@dataclass TypingMetrics`. -/
structure TypingMetrics where
  wpm : ℚ
  raw_wpm : ℚ
  accuracy_score : ℚ
  rhythm_consistency : ℚ
  fatigue_score : ℚ
  health_score : ℚ
  avg_keystroke_interval : ℚ
  keystroke_variance : ℚ
  pause_frequency : ℚ
  typing_bursts : ℕ
deriving DecidableEq

/-- `@dataclass MouseMetrics`. -/
structure MouseMetrics where
  total_distance : ℚ
  avg_speed : ℚ
  click_frequency : ℚ
  scroll_frequency : ℚ
  movement_smoothness : ℚ
  idle_periods : ℕ
  active_time_percentage : ℚ
deriving DecidableEq

/-- A Python `dict` lookup (`d.get(k)` / `d[k]`), dict as assoc list. -/
def dict_get (d : List (String × ℚ)) (k : String) : Option ℚ :=
  List.lookup k d

/-- `d[k] = v`: dict keys are unique, so every other entry for `k` is removed. -/
def dict_set (d : List (String × ℚ)) (k : String) (v : ℚ) : List (String × ℚ) :=
  d.filter (fun p => decide (p.1 ≠ k)) ++ [(k, v)]

/-- `del d[k]`: removes the (unique) entry for `k`. -/
def dict_del (d : List (String × ℚ)) (k : String) : List (String × ℚ) :=
  d.filter (fun p => decide (p.1 ≠ k))

/-- `k in d`. -/
def dict_contains (d : List (String × ℚ)) (k : String) : Bool :=
  d.any (fun p => decide (p.1 = k))

/-- A raw pynput key object: `key.char` when the key carries a (truthy)
character, and `str(key)` as its printable identity `name`. -/
structure RawKey where
  char : Option Char
  name : String
deriving DecidableEq

/-- `str(key).lower()` as a character list (`String.toLower`, char by char). -/
def lower_chars (s : String) : List Char :=
  s.toList.map Char.toLower

/-- Python's substring test `needle in hay` on char lists. -/
def contains_chars (needle : List Char) : List Char → Bool
  | [] => needle.isEmpty
  | c :: t => needle.isPrefixOf (c :: t) || contains_chars needle t

/-- The modifier substrings of `_classify_key`. -/
def modifier_names : List String := ["ctrl", "alt", "shift", "cmd", "win"]

/-- `BehavioralMonitor._classify_key`: raw key → `(key_type, is_modifier)`. -/
def classify_key (key : RawKey) : String × Bool :=
  match key.char with
  | some c =>
    if c.isAlpha then ("letter", false)
    else if c.isDigit then ("number", false)
    else if c.isWhitespace then ("space", false)
    else ("special", false)
  | none =>
    let key_name := lower_chars key.name
    let is_mod := modifier_names.any (fun m => contains_chars m.toList key_name)
    ((if is_mod then "modifier" else "special"), is_mod)

/-- `queue.Queue()` is constructed with no `maxsize` argument, i.e. `maxsize = 0`,
which the `queue` module documents as an infinite queue. -/
def queue_maxsize : ℕ := 0

/-- `q.put_nowait(x)` wrapped in `try ... except queue.Full: pass`: when
`maxsize > 0` and the queue is full the event is silently dropped, otherwise
the item is appended. -/
def put_nowait {α : Type} (maxsize : ℕ) (q : List α) (x : α) : List α :=
  if 0 < maxsize ∧ maxsize ≤ q.length then q else q ++ [x]

/-- `deque(maxlen=10000)`. -/
def deque_maxlen : ℕ := 10000

/-- `d.append(x)` on a `deque` with `maxlen`: the oldest (leftmost) element is
discarded when the deque is full. -/
def deque_append {α : Type} (maxlen : ℕ) (d : List α) (x : α) : List α :=
  let d2 := d ++ [x]
  if maxlen < d2.length then d2.drop (d2.length - maxlen) else d2

/-- The mutable attributes of a `BehavioralMonitor` instance (`__init__`). -/
structure MonitorState where
  analysis_window : ℚ
  inactivity_threshold : ℚ
  data_retention : ℚ
  keystroke_data : List KeystrokeData
  mouse_data : List MouseData
  key_press_times : List (String × ℚ)
  typing : TypingMetrics
  mouse : MouseMetrics
  last_activity : ℚ
  session_start : ℚ
  total_keystrokes : ℕ
  total_mouse_events : ℕ
  app_usage : List (String × ℚ)
  running : Bool
  keystroke_queue : List KeystrokeData
  mouse_queue : List MouseData
deriving DecidableEq

/-- `TypingMetrics(0, 0, 0, 0, 0, 0, 0, 0, 0, 0)` from `__init__`. -/
def typing_init : TypingMetrics := ⟨0, 0, 0, 0, 0, 0, 0, 0, 0, 0⟩

/-- `MouseMetrics(0, 0, 0, 0, 0, 0, 0)` from `__init__`. -/
def mouse_init : MouseMetrics := ⟨0, 0, 0, 0, 0, 0, 0⟩

/-- `BehavioralMonitor.__init__` (`now` stands for the `time.time()` calls). -/
def initial_state (analysis_window inactivity_threshold data_retention now : ℚ) :
    MonitorState where
  analysis_window := analysis_window
  inactivity_threshold := inactivity_threshold
  data_retention := data_retention
  keystroke_data := []
  mouse_data := []
  key_press_times := []
  typing := typing_init
  mouse := mouse_init
  last_activity := now
  session_start := now
  total_keystrokes := 0
  total_mouse_events := 0
  app_usage := []
  running := false
  keystroke_queue := []
  mouse_queue := []

/-- `BehavioralMonitor._on_key_press`. -/
def on_key_press (s : MonitorState) (key : RawKey) (now : ℚ) : MonitorState :=
  if !s.running then s
  else
    let c := classify_key key
    let key_id := key.name
    let s1 := { s with key_press_times := dict_set s.key_press_times key_id now }
    let keystroke : KeystrokeData :=
      { timestamp := now, key_type := c.1, is_modifier := c.2, press_duration := none }
    { s1 with keystroke_queue := put_nowait queue_maxsize s1.keystroke_queue keystroke }

/-- `self.keystroke_data[-1].press_duration = press_duration`: mutate the last
buffered record in place. -/
def set_last_duration (l : List KeystrokeData) (d : ℚ) : List KeystrokeData :=
  match l.getLast? with
  | none => l
  | some last => l.dropLast ++ [{ last with press_duration := some d }]

/-- `BehavioralMonitor._on_key_release`.  Note the source compares
`self.keystroke_data[-1].timestamp` with `self.key_press_times.get(key_id, 0)`
*after* `del self.key_press_times[key_id]` has run. -/
def on_key_release (s : MonitorState) (key : RawKey) (now : ℚ) : MonitorState :=
  if !s.running then s
  else
    let key_id := key.name
    match dict_get s.key_press_times key_id with
    | none => s
    | some press_time =>
      let press_duration := now - press_time
      let kpt := dict_del s.key_press_times key_id
      let s1 := { s with key_press_times := kpt }
      if s1.keystroke_data ≠ [] ∧
          (s1.keystroke_data.getLast?.map (fun r => r.timestamp)) =
            some ((dict_get kpt key_id).getD 0) then
        { s1 with keystroke_data := set_last_duration s1.keystroke_data press_duration }
      else s1

/-- `BehavioralMonitor._on_mouse_move`. -/
def on_mouse_move (s : MonitorState) (x y : ℤ) (now : ℚ) : MonitorState :=
  if !s.running then s
  else
    let md : MouseData := { timestamp := now, x := x, y := y, action := "move" }
    { s with mouse_queue := put_nowait queue_maxsize s.mouse_queue md }

/-- `BehavioralMonitor._on_mouse_click`: only press events (`pressed=True`)
are recorded, as a `'click'` action. -/
def on_mouse_click (s : MonitorState) (x y : ℤ) (button : String) (pressed : Bool)
    (now : ℚ) : MonitorState :=
  if !s.running then s
  else if pressed then
    let md : MouseData :=
      { timestamp := now, x := x, y := y, action := "click", button := some button }
    { s with mouse_queue := put_nowait queue_maxsize s.mouse_queue md }
  else s

/-- `BehavioralMonitor._on_mouse_scroll`. -/
def on_mouse_scroll (s : MonitorState) (x y : ℤ) (dx dy : ℚ) (now : ℚ) : MonitorState :=
  if !s.running then s
  else
    let direction := if 0 < dy then "up" else if dy < 0 then "down" else "horizontal"
    let md : MouseData :=
      { timestamp := now, x := x, y := y, action := "scroll",
        scroll_direction := some direction }
    { s with mouse_queue := put_nowait queue_maxsize s.mouse_queue md }

/-- `BehavioralMonitor._process_queued_data`: drain both queues in arrival
order into the retention deques, bumping totals and `last_activity`. -/
def process_queued_data (s : MonitorState) (now : ℚ) : MonitorState :=
  let s1 := s.keystroke_queue.foldl
    (fun st ks =>
      { st with
        keystroke_data := deque_append deque_maxlen st.keystroke_data ks
        total_keystrokes := st.total_keystrokes + 1
        last_activity := now })
    { s with keystroke_queue := [] }
  s.mouse_queue.foldl
    (fun st md =>
      { st with
        mouse_data := deque_append deque_maxlen st.mouse_data md
        total_mouse_events := st.total_mouse_events + 1
        last_activity := now })
    { s1 with mouse_queue := [] }

/-- `BehavioralMonitor._clean_old_data`: pop from the left while the head is
older than `now - data_retention`. -/
def clean_old_data (s : MonitorState) (now : ℚ) : MonitorState :=
  let cutoff := now - s.data_retention
  { s with
    keystroke_data := s.keystroke_data.dropWhile (fun ks => decide (ks.timestamp < cutoff))
    mouse_data := s.mouse_data.dropWhile (fun md => decide (md.timestamp < cutoff)) }

/-- `10 ^ n` as a rational, written recursively so it evaluates by `decide`. -/
def pow10 : ℕ → ℚ
  | 0 => 1
  | n + 1 => 10 * pow10 n

/-- Round a rational to the nearest integer, ties to even (Python rounding). -/
def pyRoundInt (x : ℚ) : ℤ :=
  if x - ⌊x⌋ < 1/2 then ⌊x⌋
  else if 1/2 < x - ⌊x⌋ then ⌊x⌋ + 1
  else if ⌊x⌋ % 2 = 0 then ⌊x⌋ else ⌊x⌋ + 1

/-- Python 3 `round(q, ndigits)`: round half to even at `ndigits` decimal
places (exact over ℚ; the source's floats are embedded as rationals). -/
def pyRound (q : ℚ) (ndigits : ℕ) : ℚ :=
  (pyRoundInt (q * pow10 ndigits) : ℚ) / pow10 ndigits

/-- `statistics.mean`. -/
def stat_mean (xs : List ℚ) : ℚ :=
  xs.sum / (xs.length : ℚ)

/-- `statistics.variance`: sample variance with denominator `n - 1`. -/
def stat_variance (xs : List ℚ) : ℚ :=
  (xs.map (fun x => (x - stat_mean xs) ^ 2)).sum / ((xs.length : ℚ) - 1)

/-- The filter at the top of `_calculate_typing_metrics`: keystrokes inside
the analysis window that are not modifiers. -/
def recent_keystrokes (s : MonitorState) (now : ℚ) : List KeystrokeData :=
  s.keystroke_data.filter
    (fun ks => decide (now - s.analysis_window ≤ ks.timestamp) && !ks.is_modifier)

/-- The pairwise inter-keystroke intervals
(`recent_keystrokes[i].timestamp - recent_keystrokes[i-1].timestamp`). -/
def keystroke_intervals (l : List KeystrokeData) : List ℚ :=
  List.zipWith (fun a b => b.timestamp - a.timestamp) l l.tail

/-- The burst-detection loop of `_calculate_typing_metrics`: a left fold
carrying `(bursts, consecutive_fast)`; an interval below `0.1` extends the
current fast run, any other interval closes it, counting it when it had
reached length `≥ 3`.  The loop has no flush after its last iteration. -/
def typing_bursts_count (intervals : List ℚ) : ℕ :=
  (intervals.foldl
    (fun (acc : ℕ × ℕ) interval =>
      if interval < 1/10 then (acc.1, acc.2 + 1)
      else if 3 ≤ acc.2 then (acc.1 + 1, 0) else (acc.1, 0))
    (0, 0)).1

/-- `TypingMetrics(0, 0, 0, 0, 0, 50, 0, 0, 0, 0)`, returned when fewer than
two keystrokes qualify. -/
def degenerate_typing : TypingMetrics := ⟨0, 0, 0, 0, 0, 50, 0, 0, 0, 0⟩

/-- First timestamp of the filtered window (`recent_keystrokes[0].timestamp`;
only used when the list is nonempty). -/
def first_timestamp : List KeystrokeData → ℚ
  | [] => 0
  | k :: _ => k.timestamp

/-- `BehavioralMonitor._calculate_typing_metrics`. -/
def calculate_typing_metrics (s : MonitorState) (now : ℚ) : TypingMetrics :=
  let recent := recent_keystrokes s now
  if recent.length < 2 then degenerate_typing
  else
    let time_span := now - first_timestamp recent
    let wpm := if 0 < time_span then ((recent.length : ℚ) / time_span) * 60 / 5 else 0
    let intervals := keystroke_intervals recent
    let avg_interval := if intervals.isEmpty then 0 else stat_mean intervals
    let interval_variance := if 1 < intervals.length then stat_variance intervals else 0
    let max_variance : ℚ := 1/2
    let rhythm_consistency := max 0 (100 - (interval_variance / max_variance) * 100)
    let pauses := (intervals.filter (fun interval => decide (2 < interval))).length
    let pause_frequency :=
      if intervals.isEmpty then 0 else ((pauses : ℚ) / (intervals.length : ℚ)) * 100
    let bursts := typing_bursts_count intervals
    let baseline_wpm : ℚ := 40
    let wpm_factor := (max 0 ((baseline_wpm - wpm) / baseline_wpm)) * 100
    let variance_factor := min 100 ((interval_variance / max_variance) * 100)
    let fatigue_score := (wpm_factor + variance_factor + pause_frequency) / 3
    let health_score :=
      min 100 (max 0 (100 - fatigue_score + (rhythm_consistency - 50) / 2))
    let accuracy_score :=
      min 100 (max 0 (100 - pause_frequency / 2 - interval_variance * 100))
    { wpm := pyRound wpm 2
      raw_wpm := pyRound wpm 2
      accuracy_score := pyRound accuracy_score 2
      rhythm_consistency := pyRound rhythm_consistency 2
      fatigue_score := pyRound fatigue_score 2
      health_score := pyRound health_score 2
      avg_keystroke_interval := pyRound avg_interval 3
      keystroke_variance := pyRound interval_variance 3
      pause_frequency := pyRound pause_frequency 2
      typing_bursts := bursts }

/-- The dict returned by `BehavioralMonitor.get_current_metrics`. -/
structure MetricsReport where
  timestamp : ℚ
  session_duration : ℚ
  time_since_last_activity : ℚ
  is_inactive : Bool
  typing_metrics : TypingMetrics
  mouse_metrics : MouseMetrics
  total_keystrokes : ℕ
  total_mouse_events : ℕ
  app_usage : List (String × ℚ)
deriving DecidableEq

/-- `BehavioralMonitor.get_current_metrics` (`now` is its `time.time()`). -/
def get_current_metrics (s : MonitorState) (now : ℚ) : MetricsReport :=
  let session_duration := now - s.session_start
  let time_since_last_activity := now - s.last_activity
  { timestamp := now
    session_duration := pyRound session_duration 2
    time_since_last_activity := pyRound time_since_last_activity 2
    is_inactive := decide (s.inactivity_threshold < time_since_last_activity)
    typing_metrics := s.typing
    mouse_metrics := s.mouse
    total_keystrokes := s.total_keystrokes
    total_mouse_events := s.total_mouse_events
    app_usage := s.app_usage }

/-- Spec-side burst count, modelled from the spec's words: the number of
maximal runs of at least 3 consecutive intervals each strictly below `0.1`,
counted wherever they occur — including a run extending to the final
interval.  `run` carries the length of the fast run in progress. -/
def spec_maximal_fast_runs : List ℚ → ℕ → ℕ
  | [], run => if 3 ≤ run then 1 else 0
  | i :: rest, run =>
    if i < 1/10 then spec_maximal_fast_runs rest (run + 1)
    else (if 3 ≤ run then 1 else 0) + spec_maximal_fast_runs rest 0

/-- Count of maximal runs of at least 3 consecutive fast intervals that are
closed by a later non-fast interval; a trailing run is not counted.  This is
the recursion the source's fold actually implements. -/
def closed_fast_runs : List ℚ → ℕ → ℕ
  | [], _ => 0
  | i :: rest, run =>
    if i < 1/10 then closed_fast_runs rest (run + 1)
    else (if 3 ≤ run then 1 else 0) + closed_fast_runs rest 0

/-!
Interleaving model for the snapshot handoff (C6).

`_analysis_loop` publishes each tick's results with two separate, unguarded
assignments, `self.current_metrics['typing'] = ...` then
`self.current_metrics['mouse'] = ...` (lines 460-461), while
`get_current_metrics` reads `self.current_metrics['typing']` and then
`self.current_metrics['mouse']` from another thread, also as two separate
operations with no lock.  Each single store and each single load is atomic
in CPython, so the shared cell is modelled by which tick last wrote each of
the two fields, and the reader by two samples of that cell: the typing field
at one point of the loop's store sequence and the mouse field at a
later-or-equal point — the reader may be preempted between its two reads
while the loop completes arbitrarily many further ticks.
-/

/-- One atomic store of the analysis loop: tick `n`'s typing metrics or tick
`n`'s mouse metrics. -/
inductive LoopWrite where
  | typingWrite (tick : ℕ)
  | mouseWrite (tick : ℕ)
deriving DecidableEq

/-- The shared `current_metrics` cell, tagged by the tick that last wrote
each field. -/
structure SharedCell where
  typingTick : ℕ
  mouseTick : ℕ
deriving DecidableEq

/-- Apply one atomic store. -/
def loop_write (m : SharedCell) : LoopWrite → SharedCell
  | .typingWrite n => { m with typingTick := n }
  | .mouseWrite n => { m with mouseTick := n }

/-- The write sequence of `ticks` iterations of `_analysis_loop`: tick `n`
stores its typing metrics, then its mouse metrics. -/
def analysis_writes : ℕ → List LoopWrite
  | 0 => []
  | t + 1 => analysis_writes t ++ [.typingWrite (t + 1), .mouseWrite (t + 1)]

/-- Replay a list of stores over the initial cell (tick 0 = `__init__`). -/
def run_writes (l : List LoopWrite) : SharedCell :=
  l.foldl loop_write ⟨0, 0⟩

/-- The contents of the shared `current_metrics` cell after the first `p`
atomic stores of a `ticks`-iteration analysis loop. -/
def cell_after (p ticks : ℕ) : SharedCell :=
  run_writes ((analysis_writes ticks).take p)

/-- What the reader assembles from its two separate unlocked reads: the
typing field sampled after `p1` stores and the mouse field sampled after
`p2` stores, `p1 ≤ p2` (the typing read at line 542 happens first; the
analysis loop may run on between the two reads). -/
def reader_observe (p1 p2 ticks : ℕ) : SharedCell :=
  ⟨(cell_after p1 ticks).typingTick, (cell_after p2 ticks).mouseTick⟩

/-! ### Concrete states and keys used by witnesses and counterexamples -/

/-- `start_monitoring` sets `self.running = True` before registering the
pynput listeners. -/
def started (s : MonitorState) : MonitorState := { s with running := true }

/-- A freshly constructed, started monitor with the default configuration
(`analysis_window=60`, `inactivity_threshold=30`, `data_retention=3600`),
created at time 0. -/
def base_state : MonitorState := started (initial_state 60 30 3600 0)

/-- The pynput key for the character key `a` (`key.char = 'a'`). -/
def aKey : RawKey := ⟨some 'a', "a"⟩

/-- The pynput key for the character key `b` (`key.char = 'b'`). -/
def bKey : RawKey := ⟨some 'b', "b"⟩

/-- A non-modifier letter keystroke record at time `t`. -/
def letter_record (t : ℚ) : KeystrokeData :=
  { timestamp := t, key_type := "letter", is_modifier := false, press_duration := none }

/-- A pointer-move record at time `t`. -/
def move_record (t : ℚ) : MouseData :=
  { timestamp := t, x := 0, y := 0, action := "move" }

/-- A buffer of four letter keystrokes 0.05 s apart: its three
inter-keystroke intervals form one maximal fast run that reaches the final
interval. -/
def burst_state : MonitorState :=
  { base_state with
    keystroke_data :=
      [letter_record 0, letter_record (1/20), letter_record (1/10), letter_record (3/20)] }

/-- A monitor whose buffers hold timestamp-sorted records, with
`data_retention = 4`. -/
def retention_state : MonitorState :=
  { base_state with
    data_retention := 4
    keystroke_data := [letter_record 1, letter_record 5, letter_record 9]
    mouse_data := [move_record 2, move_record 8] }

/-!
Key-event run model for the privacy claim (C1): a capture adapter feeds an
arbitrary sequence of raw press/release events to the two keyboard handlers.
-/

/-- Erase the pending-press dict — the only piece of monitor state keyed by
the literal `str(key)` identity. -/
def erase_pending (s : MonitorState) : MonitorState := { s with key_press_times := [] }

/-- A raw keyboard event observed by the capture adapter. -/
inductive KeyEvent where
  | press (key : RawKey) (t : ℚ)
  | release (key : RawKey) (t : ℚ)

/-- Dispatch one keyboard event to its pynput handler. -/
def key_step (s : MonitorState) : KeyEvent → MonitorState
  | .press k t => on_key_press s k t
  | .release k t => on_key_release s k t

/-- Feed a sequence of keyboard events to the handlers, in order. -/
def key_run (s : MonitorState) (evs : List KeyEvent) : MonitorState :=
  evs.foldl key_step s

/-- Two events agree on everything except possibly the literal key: same
kind, same time and — for presses — the same classifier output. -/
def events_match : KeyEvent → KeyEvent → Prop
  | .press k1 t1, .press k2 t2 => classify_key k1 = classify_key k2 ∧ t1 = t2
  | .release _ t1, .release _ t2 => t1 = t2
  | _, _ => False

/-! ### Shared helper lemmas -/

/-- With `maxsize = 0` (the source's `queue.Queue()`), `put_nowait` can never
hit `queue.Full`: it always appends. -/
theorem put_nowait_zero {α : Type} (q : List α) (x : α) :
    put_nowait queue_maxsize q x = q ++ [x] := by
  simp [put_nowait, queue_maxsize]

/-- Looking a key up after deleting it from a dict yields nothing. -/
theorem dict_get_del (d : List (String × ℚ)) (k : String) :
    dict_get (dict_del d k) k = none := by
  induction d with
  | nil => rfl
  | cons p t ih =>
    obtain ⟨a, b⟩ := p
    by_cases h : a = k
    · have hd : dict_del ((a, b) :: t) k = dict_del t k := by
        simp [dict_del, List.filter_cons, h]
      rw [hd]; exact ih
    · have hd : dict_del ((a, b) :: t) k = (a, b) :: dict_del t k := by
        simp [dict_del, List.filter_cons, h]
      rw [hd]
      have hk : (k == a) = false := by simp [Ne.symm h]
      simpa [dict_get, List.lookup, hk] using ih

/-- Elements surviving `dropWhile (timestamp < cutoff)` on a timestamp-sorted
list are all at or above the cutoff. -/
theorem dropWhile_sorted_cutoff {α : Type} (ts : α → ℚ) (c : ℚ) (p : α → Bool)
    (hpred : ∀ a, p a = decide (ts a < c)) :
    ∀ l : List α, l.Pairwise (fun a b => ts a ≤ ts b) →
      ∀ x ∈ l.dropWhile p, ¬ ts x < c := by
  intro l
  induction l with
  | nil => intro _ x hx; simp at hx
  | cons a t ih =>
    intro hp x hx
    rw [List.dropWhile_cons, hpred a] at hx
    by_cases h : ts a < c
    · rw [if_pos (by simpa using h)] at hx
      exact ih hp.of_cons x hx
    · rw [if_neg (by simpa using h)] at hx
      rcases List.mem_cons.mp hx with rfl | hxt
      · exact h
      · have hle := (List.pairwise_cons.mp hp).1 x hxt
        exact fun hlt => h (lt_of_le_of_lt hle hlt)

/-- C8: whenever fewer than 2 non-modifier keystroke records fall inside the
analysis window, `_calculate_typing_metrics` returns exactly the degenerate
`TypingMetrics` with every field zero except `health_score = 50`. -/
theorem c8_typing_degenerate (s : MonitorState) (now : ℚ)
    (h : (recent_keystrokes s now).length < 2) :
    calculate_typing_metrics s now =
      { wpm := 0, raw_wpm := 0, accuracy_score := 0, rhythm_consistency := 0,
        fatigue_score := 0, health_score := 50, avg_keystroke_interval := 0,
        keystroke_variance := 0, pause_frequency := 0, typing_bursts := 0 } := by
  unfold calculate_typing_metrics
  rw [if_pos h]
  rfl

/-- Witness for C8: a freshly started monitor has no qualifying keystrokes. -/
theorem c8_typing_degenerate_witness :
    (recent_keystrokes base_state 0).length < 2 ∧
      calculate_typing_metrics base_state 0 =
        { wpm := 0, raw_wpm := 0, accuracy_score := 0, rhythm_consistency := 0,
          fatigue_score := 0, health_score := 50, avg_keystroke_interval := 0,
          keystroke_variance := 0, pause_frequency := 0, typing_bursts := 0 } :=
  ⟨by decide, c8_typing_degenerate base_state 0 (by decide)⟩

/-- C10: a pointer-button event with `pressed=False` produces no record and
leaves the monitor state unchanged; with `pressed=True` on a running monitor
exactly one record with action `'click'` is enqueued. -/
theorem c10_click_press_only (s : MonitorState) (x y : ℤ) (button : String) (now : ℚ)
    (hrun : s.running = true) :
    on_mouse_click s x y button false now = s ∧
      on_mouse_click s x y button true now =
        { s with mouse_queue := s.mouse_queue ++
            [{ timestamp := now, x := x, y := y, action := "click",
               button := some button, scroll_direction := none }] } := by
  constructor
  · simp [on_mouse_click, hrun]
  · simp [on_mouse_click, hrun, put_nowait_zero]

/-- Witness for C10 at a concrete left-button event. -/
theorem c10_click_press_only_witness :
    base_state.running = true ∧
      (on_mouse_click base_state 3 4 "Button.left" false 1 = base_state ∧
        on_mouse_click base_state 3 4 "Button.left" true 1 =
          { base_state with mouse_queue := base_state.mouse_queue ++
              [{ timestamp := 1, x := 3, y := 4, action := "click",
                 button := some "Button.left", scroll_direction := none }] }) :=
  ⟨by decide, c10_click_press_only base_state 3 4 "Button.left" 1 (by decide)⟩

/-- C2 (code bug): press key `a` at `t = 100`, drain the queue into the
buffer, release at `t = 100.5`.  The release is tracked (the press time was
stored), yet the buffered record's `press_duration` stays `None`:
`_on_key_release` compares the record's timestamp against
`key_press_times.get(key_id, 0)` *after* `del key_press_times[key_id]`, so
the comparison is against `0` and the duration is never written. -/
theorem c2_press_duration_never_set :
    dict_get (on_key_press base_state aKey 100).key_press_times "a" = some 100 ∧
      ((on_key_release (process_queued_data (on_key_press base_state aKey 100) 100) aKey
          (201/2)).keystroke_data.map (fun r => r.press_duration)) = [none] := by
  decide

section
attribute [local semireducible] Rat.sub Rat.add Rat.mul Rat.inv

/-- C5 (counterexample): two snapshot calls on the same monitor state at
successive wall-clock instants disagree (the `timestamp`, `session_duration`
and `time_since_last_activity` fields are recomputed from the call time). -/
theorem c5_snapshot_calls_differ :
    get_current_metrics base_state 1 ≠ get_current_metrics base_state 2 ∧
      (get_current_metrics base_state 1).timestamp = 1 ∧
      (get_current_metrics base_state 2).timestamp = 2 := by decide

end

/-- C5 (amended): with no monitor-state change between the calls, every
state-derived field of the snapshot (typing metrics, mouse metrics, both
totals, app usage) is identical across the two calls; the time-derived
fields are recomputed from the wall clock of each call. -/
theorem c5_snapshot_state_fields_stable (s : MonitorState) (t1 t2 : ℚ) :
    (get_current_metrics s t1).typing_metrics = (get_current_metrics s t2).typing_metrics ∧
      (get_current_metrics s t1).mouse_metrics = (get_current_metrics s t2).mouse_metrics ∧
      (get_current_metrics s t1).total_keystrokes =
        (get_current_metrics s t2).total_keystrokes ∧
      (get_current_metrics s t1).total_mouse_events =
        (get_current_metrics s t2).total_mouse_events ∧
      (get_current_metrics s t1).app_usage = (get_current_metrics s t2).app_usage ∧
      (get_current_metrics s t1).timestamp = t1 :=
  ⟨rfl, rfl, rfl, rfl, rfl, rfl⟩

/-- `n` enqueues starting from an empty queue yield a queue of length `n`. -/
theorem enqueue_iterate_length (x : KeystrokeData) (n : ℕ) :
    ((fun q => put_nowait queue_maxsize q x)^[n] []).length = n := by
  induction n with
  | zero => rfl
  | succ k ih => rw [Function.iterate_succ_apply', put_nowait_zero]; simp [ih]

/-- C3 (counterexample): the ingestion queues have no finite capacity bound —
for every candidate bound `C`, enqueueing `C + 1` keystrokes exceeds it. -/
theorem c3_no_finite_capacity :
    ¬ ∃ C : ℕ, ∀ n : ℕ,
        ((fun q => put_nowait queue_maxsize q (letter_record 0))^[n] []).length ≤ C := by
  rintro ⟨C, hC⟩
  have h := hC (C + 1)
  rw [enqueue_iterate_length] at h
  omega

/-- C3 (amended): enqueue never blocks the producer and never drops: with the
source's `queue.Queue()` (`maxsize = 0`), `put_nowait` always appends, so the
queue grows without bound and the `queue.Full` drop branch is unreachable. -/
theorem c3_enqueue_always_appends {α : Type} (q : List α) (x : α) :
    put_nowait queue_maxsize q x = q ++ [x] ∧
      (put_nowait queue_maxsize q x).length = q.length + 1 := by
  rw [put_nowait_zero]
  exact ⟨rfl, by simp⟩

section
attribute [local semireducible] Rat.sub Rat.add Rat.mul Rat.inv

/-- C4 (counterexample): for a buffer of four keystrokes 0.05 s apart the
source computes `typing_bursts = 0`, although the window's interval sequence
contains exactly one maximal run of ≥ 3 fast intervals — the run extends to
the final interval, and the loop never flushes its last run. -/
theorem c4_trailing_run_uncounted :
    (calculate_typing_metrics burst_state 1).typing_bursts = 0 ∧
      spec_maximal_fast_runs (keystroke_intervals (recent_keystrokes burst_state 1)) 0
        = 1 := by decide

end

/-- C6 (counterexample): the reader's two unlocked reads do not yield a
single-tick snapshot.  With no preemption between the reads (both sampled
after the third store of a 2-tick loop) the reader pairs typing metrics of
tick 2 with mouse metrics of tick 1; preempted between its reads while the
loop runs on (typing sampled after store 1, mouse after store 6 of a 3-tick
loop) it pairs typing of tick 1 with mouse of tick 3 — a mix two ticks
wide. -/
theorem c6_torn_snapshot_observable :
    (reader_observe 3 3 2).typingTick ≠ (reader_observe 3 3 2).mouseTick ∧
      reader_observe 3 3 2 = ⟨2, 1⟩ ∧
      reader_observe 1 6 3 = ⟨1, 3⟩ := by decide

/-- C1 (counterexample): the character keys `a` and `b` receive the same
classification, yet pressing them leaves different monitor states: the
pending-press dict `key_press_times` is keyed by `str(key)`, the literal key
identity. -/
theorem c1_state_depends_on_key_identity :
    classify_key aKey = classify_key bKey ∧
      on_key_press base_state aKey 1 ≠ on_key_press base_state bKey 1 ∧
      (on_key_press base_state aKey 1).key_press_times ≠
        (on_key_press base_state bKey 1).key_press_times := by decide

/-- Projection of the eviction pass on the keystroke buffer. -/
theorem clean_old_data_keystrokes (s : MonitorState) (now : ℚ) :
    (clean_old_data s now).keystroke_data =
      s.keystroke_data.dropWhile
        (fun ks => decide (ks.timestamp < now - s.data_retention)) := rfl

/-- Projection of the eviction pass on the pointer buffer. -/
theorem clean_old_data_mouse (s : MonitorState) (now : ℚ) :
    (clean_old_data s now).mouse_data =
      s.mouse_data.dropWhile
        (fun md => decide (md.timestamp < now - s.data_retention)) := rfl

/-- Eviction completeness for the keystroke buffer. -/
theorem evicted_keystrokes (s : MonitorState) (now : ℚ)
    (hk : s.keystroke_data.Pairwise (fun a b => a.timestamp ≤ b.timestamp)) :
    ∀ r ∈ (clean_old_data s now).keystroke_data,
      ¬ r.timestamp < now - s.data_retention := by
  intro r hr
  rw [clean_old_data_keystrokes s now] at hr
  exact dropWhile_sorted_cutoff (fun k => k.timestamp) (now - s.data_retention)
    (fun ks => decide (ks.timestamp < now - s.data_retention)) (fun a => rfl)
    s.keystroke_data hk r hr

/-- Eviction completeness for the pointer buffer. -/
theorem evicted_mouse (s : MonitorState) (now : ℚ)
    (hm : s.mouse_data.Pairwise (fun a b => a.timestamp ≤ b.timestamp)) :
    ∀ r ∈ (clean_old_data s now).mouse_data,
      ¬ r.timestamp < now - s.data_retention := by
  intro r hr
  rw [clean_old_data_mouse s now] at hr
  exact dropWhile_sorted_cutoff (fun m => m.timestamp) (now - s.data_retention)
    (fun md => decide (md.timestamp < now - s.data_retention)) (fun a => rfl)
    s.mouse_data hm r hr

/-- C7: after `_clean_old_data` runs at time `now` on timestamp-sorted
buffers, neither retention buffer holds a record with
`timestamp < now - data_retention`. -/
theorem c7_eviction_complete (s : MonitorState) (now : ℚ)
    (hk : s.keystroke_data.Pairwise (fun a b => a.timestamp ≤ b.timestamp))
    (hm : s.mouse_data.Pairwise (fun a b => a.timestamp ≤ b.timestamp)) :
    (∀ r ∈ (clean_old_data s now).keystroke_data,
        ¬ r.timestamp < now - s.data_retention) ∧
      (∀ r ∈ (clean_old_data s now).mouse_data,
        ¬ r.timestamp < now - s.data_retention) :=
  ⟨evicted_keystrokes s now hk, evicted_mouse s now hm⟩

/-- Witness for C7: concrete sorted buffers, `data_retention = 4`, cleaned at
`now = 10`. -/
theorem c7_eviction_complete_witness :
    retention_state.keystroke_data.Pairwise (fun a b => a.timestamp ≤ b.timestamp) ∧
      ((∀ r ∈ (clean_old_data retention_state 10).keystroke_data,
          ¬ r.timestamp < 10 - retention_state.data_retention) ∧
        (∀ r ∈ (clean_old_data retention_state 10).mouse_data,
          ¬ r.timestamp < 10 - retention_state.data_retention)) :=
  ⟨by decide, c7_eviction_complete retention_state 10 (by decide) (by decide)⟩

/-- `pow10` is positive. -/
theorem pow10_pos (n : ℕ) : 0 < pow10 n := by
  induction n with
  | zero => norm_num [pow10]
  | succ k ih => rw [pow10]; exact mul_pos (by norm_num) ih

/-- `pow10` agrees with the integer power of ten. -/
theorem pow10_eq_intCast (n : ℕ) : pow10 n = (((10 : ℤ) ^ n : ℤ) : ℚ) := by
  induction n with
  | zero => norm_num [pow10]
  | succ k ih => rw [pow10, ih]; push_cast; ring

/-- `pyRoundInt x` is either `⌊x⌋`, or `⌊x⌋ + 1` and then the fractional part
of `x` is at least one half. -/
theorem pyRoundInt_cases (x : ℚ) :
    pyRoundInt x = ⌊x⌋ ∨ (pyRoundInt x = ⌊x⌋ + 1 ∧ 1/2 ≤ x - ⌊x⌋) := by
  unfold pyRoundInt
  split_ifs with h1 h2 h3
  · exact Or.inl rfl
  · exact Or.inr ⟨rfl, not_lt.mp h1⟩
  · exact Or.inl rfl
  · exact Or.inr ⟨rfl, not_lt.mp h1⟩

/-- Rounding a nonnegative rational keeps it nonnegative. -/
theorem pyRound_nonneg (q : ℚ) (n : ℕ) (hq : 0 ≤ q) : 0 ≤ pyRound q n := by
  unfold pyRound
  have hp := pow10_pos n
  have hx : 0 ≤ q * pow10 n := mul_nonneg hq hp.le
  have hf : (0 : ℤ) ≤ ⌊q * pow10 n⌋ := Int.floor_nonneg.mpr hx
  have hfq : (0 : ℚ) ≤ (⌊q * pow10 n⌋ : ℚ) := by exact_mod_cast hf
  rcases pyRoundInt_cases (q * pow10 n) with h | ⟨h, _⟩ <;> rw [h] <;>
    apply div_nonneg _ hp.le
  · exact hfq
  · push_cast
    linarith

/-- Rounding a rational bounded by an integer keeps it below that bound. -/
theorem pyRound_le_int (q : ℚ) (n : ℕ) (M : ℤ) (h : q ≤ (M : ℚ)) :
    pyRound q n ≤ (M : ℚ) := by
  unfold pyRound
  have hp := pow10_pos n
  have hxM : q * pow10 n ≤ ((M * 10 ^ n : ℤ) : ℚ) := by
    rw [pow10_eq_intCast] at *
    push_cast
    exact mul_le_mul_of_nonneg_right h (by positivity)
  have hfM : ⌊q * pow10 n⌋ ≤ M * 10 ^ n := by
    have := Int.floor_le_floor hxM
    rwa [Int.floor_intCast] at this
  rw [div_le_iff₀ hp]
  have hscale : (M : ℚ) * pow10 n = ((M * 10 ^ n : ℤ) : ℚ) := by
    rw [pow10_eq_intCast]; push_cast; ring
  rw [hscale]
  rcases pyRoundInt_cases (q * pow10 n) with hcase | ⟨hcase, hfrac⟩ <;> rw [hcase]
  · exact_mod_cast hfM
  · have hne : ⌊q * pow10 n⌋ ≠ M * 10 ^ n := by
      intro heq
      have : q * pow10 n ≤ (⌊q * pow10 n⌋ : ℚ) := by
        rw [heq]; exact_mod_cast hxM
      linarith
    have : ⌊q * pow10 n⌋ + 1 ≤ M * 10 ^ n := by omega
    exact_mod_cast this

/-- Sample variance is nonnegative on lists with at least two entries. -/
theorem stat_variance_nonneg (xs : List ℚ) (h : 1 < xs.length) :
    0 ≤ stat_variance xs := by
  unfold stat_variance
  apply div_nonneg
  · apply List.sum_nonneg
    intro x hx
    obtain ⟨y, _, rfl⟩ := List.mem_map.mp hx
    positivity
  · have h2 : (2 : ℚ) ≤ (xs.length : ℚ) := by exact_mod_cast h
    linarith

/-- C9: for every monitor state and time, the computed `TypingMetrics`
satisfies `keystroke_variance ≥ 0` and `rhythm_consistency ∈ [0, 100]`. -/
theorem c9_variance_rhythm_bounds (s : MonitorState) (now : ℚ) :
    0 ≤ (calculate_typing_metrics s now).keystroke_variance ∧
      0 ≤ (calculate_typing_metrics s now).rhythm_consistency ∧
      (calculate_typing_metrics s now).rhythm_consistency ≤ 100 := by
  unfold calculate_typing_metrics
  by_cases h : (recent_keystrokes s now).length < 2
  · rw [if_pos h]
    norm_num [degenerate_typing]
  · rw [if_neg h]
    dsimp only
    set V := (if 1 < (keystroke_intervals (recent_keystrokes s now)).length then
        stat_variance (keystroke_intervals (recent_keystrokes s now)) else 0) with hVdef
    have hV : 0 ≤ V := by
      rw [hVdef]
      split_ifs with hlen
      · exact stat_variance_nonneg _ hlen
      · exact le_refl 0
    have hRexpr : 0 ≤ (V / (1/2)) * 100 := by positivity
    have hR0 : 0 ≤ max 0 (100 - (V / (1/2)) * 100) := le_max_left _ _
    have hR100 : max 0 (100 - (V / (1/2)) * 100) ≤ 100 :=
      max_le (by norm_num) (by linarith)
    refine ⟨pyRound_nonneg _ _ hV, pyRound_nonneg _ _ hR0, ?_⟩
    have := pyRound_le_int (max 0 (100 - (V / (1/2)) * 100)) 2 100 (by exact_mod_cast hR100)
    exact_mod_cast this

/-- Lists with fewer than two keystrokes have no intervals. -/
theorem keystroke_intervals_short (l : List KeystrokeData) (h : l.length < 2) :
    keystroke_intervals l = [] := by
  match l, h with
  | [], _ => rfl
  | [a], _ => rfl

/-- The burst fold computes the closed-run count, for any starting
accumulator. -/
theorem bursts_fold_eq_closed_runs (l : List ℚ) : ∀ b c : ℕ,
    (l.foldl
      (fun (acc : ℕ × ℕ) interval =>
        if interval < 1/10 then (acc.1, acc.2 + 1)
        else if 3 ≤ acc.2 then (acc.1 + 1, 0) else (acc.1, 0))
      (b, c)).1 = b + closed_fast_runs l c := by
  induction l with
  | nil => intro b c; simp [closed_fast_runs]
  | cons i t ih =>
    intro b c
    rw [List.foldl_cons]
    unfold closed_fast_runs
    by_cases h1 : i < 1/10
    · rw [if_pos h1, if_pos h1]
      exact ih b (c + 1)
    · rw [if_neg h1, if_neg h1]
      by_cases h2 : 3 ≤ c
      · rw [if_pos h2, if_pos h2, ih (b + 1) 0]
        omega
      · rw [if_neg h2, if_neg h2, ih b 0]
        omega

/-- `typing_bursts_count` counts exactly the closed maximal fast runs. -/
theorem typing_bursts_count_eq (l : List ℚ) :
    typing_bursts_count l = closed_fast_runs l 0 := by
  unfold typing_bursts_count
  rw [bursts_fold_eq_closed_runs l 0 0]
  omega

/-- C4 (amended): `typing_bursts` equals the number of maximal runs of at
least 3 consecutive intervals below 0.1 s that are *terminated by a
non-fast interval*; a maximal run extending to the final interval is not
counted. -/
theorem c4_typing_bursts_closed_runs (s : MonitorState) (now : ℚ) :
    (calculate_typing_metrics s now).typing_bursts =
      closed_fast_runs (keystroke_intervals (recent_keystrokes s now)) 0 := by
  unfold calculate_typing_metrics
  by_cases h : (recent_keystrokes s now).length < 2
  · rw [if_pos h, keystroke_intervals_short _ h]
    rfl
  · rw [if_neg h]
    dsimp only
    exact typing_bursts_count_eq _

/-- Each loop iteration contributes exactly two atomic stores. -/
theorem analysis_writes_length (t : ℕ) : (analysis_writes t).length = 2 * t := by
  induction t with
  | zero => rfl
  | succ k ih => simp [analysis_writes, ih]; omega

/-- Replaying an appended store list factors through `foldl`. -/
theorem run_writes_append (l1 l2 : List LoopWrite) :
    run_writes (l1 ++ l2) = l2.foldl loop_write (run_writes l1) := by
  simp [run_writes, List.foldl_append]

/-- After `t` complete ticks both fields hold tick `t`. -/
theorem run_writes_full (t : ℕ) : run_writes (analysis_writes t) = ⟨t, t⟩ := by
  induction t with
  | zero => rfl
  | succ k ih =>
    have he : analysis_writes (k + 1) =
        analysis_writes k ++ [LoopWrite.typingWrite (k + 1), LoopWrite.mouseWrite (k + 1)] := rfl
    rw [he, run_writes_append, ih]
    rfl

/-- Closed form of the cell a reader observes after `p` atomic stores of a
`t`-tick loop. -/
theorem cell_after_closed (t p : ℕ) :
    cell_after p t =
      if 2 * t ≤ p then (⟨t, t⟩ : SharedCell) else ⟨(p + 1) / 2, p / 2⟩ := by
  induction t with
  | zero =>
    show run_writes (List.take p []) = _
    rw [List.take_nil, if_pos (by omega)]
    rfl
  | succ k ih =>
    have he : analysis_writes (k + 1) =
        analysis_writes k ++ [LoopWrite.typingWrite (k + 1), LoopWrite.mouseWrite (k + 1)] := rfl
    show run_writes ((analysis_writes (k + 1)).take p) = _
    rw [he, List.take_append_eq_append_take, analysis_writes_length]
    by_cases hp : p ≤ 2 * k
    · rw [show p - 2 * k = 0 from by omega, List.take_zero, List.append_nil]
      have hih : run_writes ((analysis_writes k).take p) =
          if 2 * k ≤ p then (⟨k, k⟩ : SharedCell) else ⟨(p + 1) / 2, p / 2⟩ := ih
      rw [hih]
      by_cases h2 : 2 * k ≤ p
      · rw [if_pos h2, if_neg (by omega)]
        have hpk : p = 2 * k := by omega
        subst hpk
        show SharedCell.mk k k = SharedCell.mk ((2 * k + 1) / 2) (2 * k / 2)
        congr 1 <;> omega
      · rw [if_neg h2, if_neg (by omega)]
    · rw [List.take_of_length_le (by rw [analysis_writes_length]; omega)]
      by_cases hq : p = 2 * k + 1
      · rw [show p - 2 * k = 1 from by omega,
          show (([LoopWrite.typingWrite (k + 1), LoopWrite.mouseWrite (k + 1)]).take 1) =
            [LoopWrite.typingWrite (k + 1)] from rfl]
        rw [run_writes_append, run_writes_full]
        rw [if_neg (by omega)]
        show SharedCell.mk (k + 1) k = SharedCell.mk ((p + 1) / 2) (p / 2)
        congr 1 <;> omega
      · rw [List.take_of_length_le (by simp; omega)]
        rw [run_writes_append, run_writes_full]
        rw [if_pos (by omega)]
        rfl

/-- C6 (amended): a reader is not guaranteed a single-tick snapshot.  What
the two unlocked reads do guarantee is only an ordering bound — the mouse
metrics are read after the typing metrics and ticks advance monotonically,
so the observed mouse tick is at least the observed typing tick minus one;
and every pair `(n, m)` of ticks with `m ≥ n - 1` is observable at some
interleaving, so the mix can be arbitrarily many ticks wide. -/
theorem c6_reader_mix_characterization :
    (∀ t p1 p2, p1 ≤ p2 →
        (reader_observe p1 p2 t).typingTick ≤
          (reader_observe p1 p2 t).mouseTick + 1) ∧
      (∀ t n m, n ≤ t → m ≤ t → n ≤ m + 1 →
        ∃ p1 p2, p1 ≤ p2 ∧ reader_observe p1 p2 t = ⟨n, m⟩) := by
  constructor
  · intro t p1 p2 hp
    show (cell_after p1 t).typingTick ≤ (cell_after p2 t).mouseTick + 1
    rw [cell_after_closed, cell_after_closed]
    split_ifs with h1 h2 <;> dsimp only <;> omega
  · intro t n m hn hm hnm
    by_cases hcase : n ≤ m
    · refine ⟨2 * n, 2 * m, by omega, ?_⟩
      show SharedCell.mk (cell_after (2 * n) t).typingTick
          (cell_after (2 * m) t).mouseTick = SharedCell.mk n m
      rw [cell_after_closed, cell_after_closed]
      split_ifs with h1 h2 <;> dsimp only <;> congr 1 <;> omega
    · refine ⟨2 * m + 1, 2 * m + 1, le_refl _, ?_⟩
      show SharedCell.mk (cell_after (2 * m + 1) t).typingTick
          (cell_after (2 * m + 1) t).mouseTick = SharedCell.mk n m
      rw [cell_after_closed]
      split_ifs with h1 <;> dsimp only <;> congr 1 <;> omega

/-- Witness for the amended C6: the ordering bound at concrete sample points
`p1 = 3 ≤ p2 = 5` of a 3-tick loop, and an observable two-ticks-wide mix
(typing of tick 1 with mouse of tick 4) in a 5-tick loop. -/
theorem c6_reader_mix_characterization_witness :
    ((reader_observe 3 5 3).typingTick ≤ (reader_observe 3 5 3).mouseTick + 1) ∧
      ∃ p1 p2, p1 ≤ p2 ∧ reader_observe p1 p2 5 = ⟨1, 4⟩ :=
  ⟨c6_reader_mix_characterization.1 3 3 5 (by decide),
    c6_reader_mix_characterization.2 5 1 4 (by decide) (by decide) (by decide)⟩

/-- The value reported by `getLast?` is an element of the list. -/
theorem mem_of_getLast_eq {α : Type} {l : List α} {a : α}
    (h : l.getLast? = some a) : a ∈ l := by
  rcases List.mem_getLast?_eq_getLast (Option.mem_def.mpr h) with ⟨hne, rfl⟩
  exact List.getLast_mem hne

/-- `key_step` on a press event is `_on_key_press`. -/
theorem key_step_press (s : MonitorState) (k : RawKey) (t : ℚ) :
    key_step s (KeyEvent.press k t) = on_key_press s k t := rfl

/-- `key_step` on a release event is `_on_key_release`. -/
theorem key_step_release (s : MonitorState) (k : RawKey) (t : ℚ) :
    key_step s (KeyEvent.release k t) = on_key_release s k t := rfl

/-- `key_run` peels one event off the front. -/
theorem key_run_cons (s : MonitorState) (e : KeyEvent) (evs : List KeyEvent) :
    key_run s (e :: evs) = key_run (key_step s e) evs := rfl

/-- A press never touches the keystroke retention buffer (the new record
goes to the ingestion queue). -/
theorem on_key_press_keystroke_data (s : MonitorState) (k : RawKey) (t : ℚ) :
    (on_key_press s k t).keystroke_data = s.keystroke_data := by
  unfold on_key_press
  by_cases hr : s.running <;> simp [hr]

/-- When no buffered record carries timestamp 0 (true of every real run:
timestamps are positive wall-clock values), a release never mutates the
keystroke buffer — the duration write is dead code. -/
theorem on_key_release_keystroke_data (s : MonitorState) (k : RawKey) (t : ℚ)
    (hI : ∀ r ∈ s.keystroke_data, r.timestamp ≠ 0) :
    (on_key_release s k t).keystroke_data = s.keystroke_data := by
  unfold on_key_release
  by_cases hr : s.running
  · rcases hdg : dict_get s.key_press_times k.name with _ | pt
    · simp [hr, hdg]
    · have hcond : ¬(¬s.keystroke_data = [] ∧
          ∃ a, s.keystroke_data.getLast? = some a ∧
            a.timestamp = ((dict_get (dict_del s.key_press_times k.name) k.name).getD 0)) := by
        rintro ⟨-, a, hLa, ha0⟩
        rw [dict_get_del] at ha0
        simp only [Option.getD_none] at ha0
        exact hI a (mem_of_getLast_eq hLa) ha0
      simp [hr, hdg, hcond]
  · simp [hr]

/-- When no buffered record carries timestamp 0, a release changes nothing
but the pending-press dict. -/
theorem on_key_release_erase (s : MonitorState) (k : RawKey) (t : ℚ)
    (hI : ∀ r ∈ s.keystroke_data, r.timestamp ≠ 0) :
    erase_pending (on_key_release s k t) = erase_pending s := by
  unfold on_key_release
  by_cases hr : s.running
  · rcases hdg : dict_get s.key_press_times k.name with _ | pt
    · simp [hr, hdg]
    · have hcond : ¬(¬s.keystroke_data = [] ∧
          ∃ a, s.keystroke_data.getLast? = some a ∧
            a.timestamp = ((dict_get (dict_del s.key_press_times k.name) k.name).getD 0)) := by
        rintro ⟨-, a, hLa, ha0⟩
        rw [dict_get_del] at ha0
        simp only [Option.getD_none] at ha0
        exact hI a (mem_of_getLast_eq hLa) ha0
      simp [hr, hdg, hcond, erase_pending]
  · simp [hr]

/-- The effect of a press after erasing the pending-press dict: everything
appended depends only on the classification and the timestamp. -/
theorem on_key_press_erase (s : MonitorState) (k : RawKey) (t : ℚ) :
    erase_pending (on_key_press s k t) =
      if s.running then
        { erase_pending s with keystroke_queue :=
            s.keystroke_queue ++
              [{ timestamp := t, key_type := (classify_key k).1,
                 is_modifier := (classify_key k).2, press_duration := none }] }
      else erase_pending s := by
  unfold on_key_press erase_pending
  by_cases hr : s.running <;> simp [hr, put_nowait_zero]

/-- Presses of equally classified keys act identically on erased states. -/
theorem press_pair_erase (s1 s2 : MonitorState) (k1 k2 : RawKey) (t : ℚ)
    (he : erase_pending s1 = erase_pending s2)
    (hc : classify_key k1 = classify_key k2) :
    erase_pending (on_key_press s1 k1 t) = erase_pending (on_key_press s2 k2 t) := by
  have hrun0 : (erase_pending s1).running = (erase_pending s2).running :=
    congrArg MonitorState.running he
  have hrun : s1.running = s2.running := hrun0
  have hq0 : (erase_pending s1).keystroke_queue = (erase_pending s2).keystroke_queue :=
    congrArg MonitorState.keystroke_queue he
  have hq : s1.keystroke_queue = s2.keystroke_queue := hq0
  rw [on_key_press_erase, on_key_press_erase, hrun, hq, hc, he]

/-- C1 (amended): every record and every piece of monitor state *except the
pending-press dict* depends only on each key event's classification: two
runs over key-event sequences that agree event-wise on kind, time and
classification (but may differ in the literal keys) end in states that are
equal after erasing `key_press_times` — provided no buffered record carries
the sentinel timestamp 0, which real wall-clock runs never do. -/
theorem c1_records_invariant_under_relabeling (s : MonitorState)
    (hI : ∀ r ∈ s.keystroke_data, r.timestamp ≠ 0)
    (evs1 evs2 : List KeyEvent) (hm : List.Forall₂ events_match evs1 evs2) :
    erase_pending (key_run s evs1) = erase_pending (key_run s evs2) := by
  have main : ∀ l1 l2, List.Forall₂ events_match l1 l2 →
      ∀ s1 s2, erase_pending s1 = erase_pending s2 →
        (∀ r ∈ s1.keystroke_data, r.timestamp ≠ 0) →
        erase_pending (key_run s1 l1) = erase_pending (key_run s2 l2) := by
    intro l1 l2 hf
    induction hf with
    | nil => intro s1 s2 he _; exact he
    | cons hpair htail ih =>
      intro s1 s2 he hI1
      have hkd0 : (erase_pending s1).keystroke_data = (erase_pending s2).keystroke_data :=
        congrArg MonitorState.keystroke_data he
      have hkd : s1.keystroke_data = s2.keystroke_data := hkd0
      have hI2 : ∀ r ∈ s2.keystroke_data, r.timestamp ≠ 0 := by
        rw [← hkd]; exact hI1
      rw [key_run_cons, key_run_cons]
      rename_i e1 e2 t1 t2
      cases e1 with
      | press k1 tp1 =>
        cases e2 with
        | press k2 tp2 =>
          obtain ⟨hc, ht⟩ := hpair
          subst ht
          rw [key_step_press, key_step_press]
          apply ih
          · exact press_pair_erase s1 s2 k1 k2 tp1 he hc
          · intro r hr
            rw [on_key_press_keystroke_data] at hr
            exact hI1 r hr
        | release k2 tp2 => simp [events_match] at hpair
      | release k1 tp1 =>
        cases e2 with
        | press k2 tp2 => simp [events_match] at hpair
        | release k2 tp2 =>
          have ht : tp1 = tp2 := hpair
          subst ht
          rw [key_step_release, key_step_release]
          apply ih
          · rw [on_key_release_erase s1 k1 tp1 hI1,
              on_key_release_erase s2 k2 tp1 hI2]
            exact he
          · intro r hr
            rw [on_key_release_keystroke_data s1 k1 tp1 hI1] at hr
            exact hI1 r hr
  exact main evs1 evs2 hm s s rfl hI

/-- Witness for the amended C1: pressing and releasing `a` versus `b` from a
fresh monitor leaves identical states outside the pending-press dict. -/
theorem c1_records_invariant_under_relabeling_witness :
    (∀ r ∈ base_state.keystroke_data, r.timestamp ≠ 0) ∧
      erase_pending (key_run base_state
          [KeyEvent.press aKey 1, KeyEvent.release aKey 2]) =
        erase_pending (key_run base_state
          [KeyEvent.press bKey 1, KeyEvent.release bKey 2]) :=
  ⟨by decide,
    c1_records_invariant_under_relabeling base_state (by decide) _ _
      (List.Forall₂.cons ⟨by decide, rfl⟩ (List.Forall₂.cons rfl List.Forall₂.nil))⟩
